import Mathlib

/-!
Verification development for the i2i Teaming Tool repository.

This file gives a shallow embedding, in Lean, of the parts of the code base
that the checked properties are about:

* small JavaScript semantics helpers (string trim, padStart, parseInt,
  comma-separated parsing) used pervasively by the code;
* the `Codes` reminder offset/label tables (`readReminderColumns`,
  `labelToOffset`, `offsetToLabel`, `buildDefaultReminderLabel`);
* the `Config` sheet and the `IdAllocator` (`next`, `getAndIncrementSerial`);
* the `SnapshotSheet` (`loadSnapshot`, `overwriteWithCurrent`, `detectChanges`);
* the `ValidationService.getAllowedStatusValues` transition guard;
* the `handleProjectsEdit` completed-at handler from `Main.js`;
* the `ProjectService` ready-row processor (`validateProjectData`,
  `processReadyProject`, `processReadyProjects`), with the external
  providers (Drive, Calendar, Mail, Directory) abstracted as oracles.

Machine integers are modelled as `Int`/`Nat`; JavaScript `null`/`undefined`
as `Option`; thrown exceptions as explicit error results.
-/

/-! ## JavaScript semantics helpers -/

/-- Whitespace characters recognised by `String.prototype.trim` (the subset
relevant to the sheet data handled by the tool). -/
def isJsWhitespace (c : Char) : Bool :=
  c = ' ' || c = '\t' || c = '\n' || c = '\r'

/-- Model of `String.prototype.trim`: drop leading and trailing whitespace. -/
def jsTrim (s : String) : String :=
  ⟨((s.data.dropWhile isJsWhitespace).reverse.dropWhile isJsWhitespace).reverse⟩

/-- Model of `String.prototype.padStart(len, c)`. -/
def jsPadStart (s : String) (len : Nat) (c : Char) : String :=
  ⟨List.replicate (len - s.data.length) c⟩ ++ s

/-- Value of a non-empty list of decimal digit characters. -/
def digitsValue (ds : List Char) : Nat :=
  ds.foldl (fun a c => a * 10 + (c.toNat - 48)) 0

/-- Model of `parseInt(s, 10)`: skip leading whitespace, read an optional
sign and the longest digit prefix; `none` models the `NaN` result. -/
def jsParseInt (s : String) : Option Int :=
  let l := s.data.dropWhile isJsWhitespace
  match l with
  | '-' :: rest =>
    let ds := rest.takeWhile Char.isDigit
    if ds.isEmpty then none else some (-(digitsValue ds : Int))
  | '+' :: rest =>
    let ds := rest.takeWhile Char.isDigit
    if ds.isEmpty then none else some (digitsValue ds : Int)
  | _ =>
    let ds := l.takeWhile Char.isDigit
    if ds.isEmpty then none else some (digitsValue ds : Int)

/-- `padNumber` from `Utils.js`: `String(num).padStart(length, '0')`. -/
def padNumber (num : Int) (length : Nat) : String :=
  jsPadStart (toString num) length '0'

/-- Model of `String.prototype.split(',')` on the character list: splitting
the empty string yields one empty part. -/
def splitOnComma : List Char → List (List Char)
  | [] => [[]]
  | c :: rest =>
    let r := splitOnComma rest
    if c = ',' then [] :: r
    else
      match r with
      | [] => [[c]]
      | h :: t => (c :: h) :: t

/-- Model of `String.prototype.toLowerCase` (ASCII range). -/
def jsToLower (s : String) : String :=
  ⟨s.data.map Char.toLower⟩

/-- `parseCommaSeparated` from `Utils.js`: split on commas, trim each part,
drop empty parts; a falsy (empty) input yields the empty list. -/
def parseCommaSeparated (str : String) : List String :=
  if str = "" then []
  else ((splitOnComma str.data).map (fun part => jsTrim ⟨part⟩)).filter (fun s => s ≠ "")

/-- `joinCommaSeparated` from `Utils.js`: drop falsy entries, join with a
comma and a space. -/
def joinCommaSeparated (arr : List String) : String :=
  String.intercalate ", " (arr.filter (fun s => s ≠ ""))

/-! ## Constants (`Constants.js`)

The live constants file is the one bundled with `ExecutionContext`
(the one defining `PROJECT_STATUS.PROJECT_ASSIGNED` and
`PROJECT_STATUS.COMPLETE`, both of which `ProjectService.js` and `Main.js`
depend on). -/

namespace AUTOMATION_STATUS

def BLANK : String := ""

def READY : String := "Ready"

def CREATED : String := "Created"

def UPDATED : String := "Updated"

def DELETE_NOTIFY : String := "Delete (Notify)"

def DELETE_NO_NOTIFY : String := "Delete (Don\x27t Notify)"

def DELETED : String := "Deleted"

def ERROR : String := "Error"

end AUTOMATION_STATUS

namespace PROJECT_STATUS

def PROJECT_ASSIGNED : String := "Project Assigned"

def ON_TRACK : String := "On Track"

def BEHIND_SCHEDULE : String := "Behind Schedule"

def STUCK : String := "Stuck"

def LATE : String := "Late"

def COMPLETE : String := "Complete"

end PROJECT_STATUS

/-! ## `ValidationService.getAllowedStatusValues` -/

namespace ValidationService

open AUTOMATION_STATUS

/-- Direct translation of the `switch` in
`ValidationService.getAllowedStatusValues`. -/
def getAllowedStatusValues (currentStatus : String) : List String :=
  if currentStatus = BLANK ∨ currentStatus = "" then
    [READY]
  else if currentStatus = CREATED then
    [CREATED, UPDATED, DELETE_NOTIFY, DELETE_NO_NOTIFY]
  else if currentStatus = ERROR then
    [ERROR, READY]
  else if currentStatus = READY then
    [READY]
  else if currentStatus = UPDATED then
    [UPDATED]
  else if currentStatus = DELETE_NOTIFY ∨ currentStatus = DELETE_NO_NOTIFY then
    [currentStatus]
  else if currentStatus = DELETED then
    [DELETED]
  else
    [if currentStatus = "" then READY else currentStatus]

end ValidationService

/-! ## `handleProjectsEdit` (`Main.js`)

The handler receives the edit event; time is modelled as a `Nat` tick and
the per-row `completed_at` cell as an `Option Nat`. -/

/-- The fields of the `onEdit` event that `handleProjectsEdit` reads.
`value`/`oldValue` are absent (`undefined`) for multi-cell edits. -/
structure EditEvent where
  row : Nat
  col : Nat
  value : Option String
  oldValue : Option String
  deriving DecidableEq, Repr

/-- Direct translation of `handleProjectsEdit`: given the (0-based) column
indices of `project_status` and `completed_at` (each `none` when the column
is not found), the edit event, the current `completed_at` cell of the edited
row and the current time, return the new `completed_at` cell. -/
def handleProjectsEdit (statusColIndex completedAtColIndex : Option Nat)
    (event : EditEvent) (completedAt : Option Nat) (now : Nat) : Option Nat :=
  if event.row ≤ 2 then completedAt
  else
    match statusColIndex with
    | none => completedAt
    | some sci =>
      if event.col = sci + 1 then
        let newValue := jsTrim (event.value.getD "")
        let oldValue := jsTrim (event.oldValue.getD "")
        if newValue = PROJECT_STATUS.COMPLETE ∧ oldValue ≠ PROJECT_STATUS.COMPLETE then
          match completedAtColIndex with
          | some _ => some now
          | none => completedAt
        else completedAt
      else completedAt

/-! ## Association-list model of a JavaScript `Map`

`Map.set` updates the value in place when the key is already present
(keeping insertion order) and appends otherwise; `Map.get` returns the
stored value or `undefined`. -/

/-- `Map.prototype.set` on an entry list. -/
def mapSet (m : List (String × String)) (k v : String) : List (String × String) :=
  if m.any (fun e => e.1 = k) then
    m.map (fun e => if e.1 = k then (k, v) else e)
  else m ++ [(k, v)]

/-- `Map.prototype.get` on an entry list (`none` models `undefined`). -/
def mapGet (m : List (String × String)) (k : String) : Option String :=
  (m.find? (fun e => e.1 = k)).map (fun e => e.2)

/-! ## `SnapshotSheet`

A snapshot sheet is modelled as its list of rows, each row reduced to the
two columns the class reads (`PROJECT_ID_COL`, `STATUS_COL`); the first row
is the header. -/

namespace SnapshotSheet

/-- The loop body of `SnapshotSheet.loadSnapshot`: trim both cells and
store the row in the map when the trimmed project id is non-empty. -/
def loadSnapshotStep (snapshot : List (String × String)) (row : String × String) :
    List (String × String) :=
  let projectId := jsTrim row.1
  let status := jsTrim row.2
  if projectId ≠ "" then mapSet snapshot projectId status else snapshot

/-- `SnapshotSheet.loadSnapshot`: skip the header row, trim both cells,
keep rows with a non-empty project id, later rows overwriting earlier ones
with the same id (Map semantics). -/
def loadSnapshot (sheetRows : List (String × String)) : List (String × String) :=
  (sheetRows.drop 1).foldl loadSnapshotStep []

/-- `SnapshotSheet.overwriteWithCurrent`: the sheet contents after the
overwrite — the (untouched) header row followed by one `[projectId, status]`
row per entry of the map whose id is truthy, in map order. -/
def overwriteWithCurrent (currentStatuses : List (String × String)) :
    List (String × String) :=
  ("project_id", "project_status") :: currentStatuses.filter (fun e => e.1 ≠ "")

/-- The loop body of `SnapshotSheet.detectChanges` for one entry of the
current status map: a change triple when the id is in the previous snapshot
with a different status, nothing otherwise (new projects are not changes).
-/
def detectChangeEntry (previousSnapshot : List (String × String))
    (e : String × String) : Option (String × String × String) :=
  match mapGet previousSnapshot e.1 with
  | none => none
  | some oldStatus =>
    if oldStatus ≠ e.2 then some (e.1, oldStatus, e.2) else none

/-- `SnapshotSheet.detectChanges`: reload the previous snapshot from the
sheet, then report `(projectId, oldStatus, newStatus)` for every entry of
the current map that is present in the snapshot with a different status;
entries absent from the snapshot are skipped. -/
def detectChanges (sheetRows : List (String × String))
    (currentStatuses : List (String × String)) : List (String × String × String) :=
  let previousSnapshot := loadSnapshot sheetRows
  currentStatuses.filterMap (detectChangeEntry previousSnapshot)

end SnapshotSheet

/-! ## `Codes` reminder offset/label tables -/

namespace Codes

/-- `Codes.normalizeValue`: `String(value).trim()` with `null`/`undefined`
mapped to the empty string. -/
def normalizeValue (value : Option String) : String :=
  jsTrim (value.getD "")

/-- The in-memory reminder table: `reminderOffsets` and `reminderLabels`,
kept aligned by construction. -/
structure ReminderTable where
  offsets : List Int
  labels : List String
  deriving DecidableEq, Repr

/-- `Codes.readReminderColumns`: skip the header row; for each data row
parse the offset cell with `parseInt`, skipping unparsable offsets and
offsets already seen; record the normalized label alongside. -/
def readReminderColumns (rows : List (String × String)) : ReminderTable :=
  (rows.drop 1).foldl
    (fun t row =>
      match jsParseInt row.1 with
      | none => t
      | some offset =>
        if offset ∈ t.offsets then t
        else { offsets := t.offsets ++ [offset],
               labels := t.labels ++ [normalizeValue (some row.2)] })
    { offsets := [], labels := [] }

/-- `Codes.buildDefaultReminderLabel`. -/
def buildDefaultReminderLabel (offset : Int) : String :=
  if offset = 7 then "1 week before"
  else if offset = 14 then "2 weeks before"
  else if offset = 21 then "3 weeks before"
  else toString offset ++ " days before"

/-- The search loop of `Codes.labelToOffset`: return the offset aligned
with the first non-empty label equal (lowercased) to the normalized input. -/
def labelLookup : List Int → List String → String → Option Int
  | offset :: os, currentLabel :: ls, normalized =>
    if currentLabel ≠ "" ∧ jsToLower currentLabel = normalized then some offset
    else labelLookup os ls normalized
  | _, _, _ => none

/-- `Codes.labelToOffset`: falsy labels map to `null`; otherwise search the
label column case-insensitively, falling back to `parseInt` on the label. -/
def labelToOffset (t : ReminderTable) (label : String) : Option Int :=
  if label = "" then none
  else
    let normalized := jsToLower (jsTrim label)
    match labelLookup t.offsets t.labels normalized with
    | some offset => some offset
    | none => jsParseInt label

/-- The `indexOf`-plus-lookup step of `Codes.offsetToLabel`: the label
aligned with the first occurrence of the offset. -/
def offsetLookup : List Int → List String → Int → Option String
  | o :: os, l :: ls, offset =>
    if o = offset then some l else offsetLookup os ls offset
  | _, _, _ => none

/-- `Codes.offsetToLabel`: `null`/`undefined` maps to the empty string; a
configured offset maps to its stored label when that label is non-empty,
and to the generated default label otherwise. -/
def offsetToLabel (t : ReminderTable) (offset : Option Int) : String :=
  match offset with
  | none => ""
  | some o =>
    match offsetLookup t.offsets t.labels o with
    | some label => if label ≠ "" then label else buildDefaultReminderLabel o
    | none => buildDefaultReminderLabel o

/-- `DEFAULTS.REMINDER_OFFSETS` from `Constants.js`. -/
def DEFAULTS_REMINDER_OFFSETS : List Int := [3, 7, 14]

/-- `Codes.getDefaultReminderLabels`: the stored labels when any exist,
else labels generated from the default offsets. -/
def getDefaultReminderLabels (t : ReminderTable) : List String :=
  if t.labels.length > 0 then t.labels
  else DEFAULTS_REMINDER_OFFSETS.map buildDefaultReminderLabel

end Codes

/-! ## `Config` and `IdAllocator` -/

/-- The `Config` sheet: column A (key) and column B (value) of each row. -/
structure ConfigSheet where
  rows : List (String × String)
  deriving DecidableEq, Repr

namespace Config

/-- `Config.loadData`: build the key-value map, skipping falsy keys,
trimming keys, later rows overwriting earlier ones. -/
def keyValueMap (c : ConfigSheet) : List (String × String) :=
  c.rows.foldl
    (fun m row => if row.1 ≠ "" then mapSet m (jsTrim row.1) row.2 else m)
    []

/-- `Config.get`. -/
def get (c : ConfigSheet) (key : String) : Option String :=
  mapGet (keyValueMap c) key

/-- `Config.districtId`: `String(this.get('District ID') || '').trim()`. -/
def districtId (c : ConfigSheet) : String :=
  jsTrim ((get c "District ID").getD "")

/-- `Config.nextSerial`: `parseInt(value, 10) || 1` — an absent or
unparsable (or zero) value falls back to 1, not to an error. -/
def nextSerial (c : ConfigSheet) : Int :=
  match jsParseInt ((get c "Next Serial").getD "") with
  | none => 1
  | some n => if n = 0 then 1 else n

/-- The property access `this.config.schoolYear` in `IdAllocator.next` and
`ExecutionContext.getSummary`: the `Config` class declares no `schoolYear`
getter (its getters are `districtId`, `nextSerial`, `parentFolderId`,
`rootFolderId`, `backupsFolderId`, `projectTemplateId`, `formId`,
`errorEmailAddresses`, the email template ids and `schoolYearStartMonth`),
so the access evaluates to `undefined`. -/
def schoolYearProperty (_ : ConfigSheet) : Option String :=
  none

/-- `Config.schoolYearStartMonth`: `parseInt` of the configured value,
defaulting to 7 (July) when missing or out of the 1..12 range. -/
def schoolYearStartMonth (c : ConfigSheet) : Nat :=
  match jsParseInt ((get c "School Year Start Month").getD "") with
  | none => 7
  | some n => if n < 1 ∨ n > 12 then 7 else n.toNat

/-- The write-back loop of `Config.getAndIncrementSerial`: update column B
of the first row whose trimmed key is `Next Serial` (the sheet write is
flushed synchronously inside the lock), leaving the sheet unchanged when no
such row exists. -/
def setNextSerialRow : List (String × String) → Int → List (String × String)
  | [], _ => []
  | row :: rest, newSerial =>
    if jsTrim row.1 = "Next Serial" then (row.1, toString newSerial) :: rest
    else row :: setNextSerialRow rest newSerial

/-- `Config.getAndIncrementSerial`: return the current serial and the
config sheet after writing back `serial + 1`. -/
def getAndIncrementSerial (c : ConfigSheet) : Int × ConfigSheet :=
  let currentSerial := nextSerial c
  let newSerial := currentSerial + 1
  (currentSerial, ⟨setNextSerialRow c.rows newSerial⟩)

end Config

namespace IdAllocator

/-- `IdAllocator.next`: direct translation. The method takes no parameter
in the source (the school-year bucket passed by `processReadyProject` is
ignored); it reads `this.config.districtId` and `this.config.schoolYear`
and throws when either is falsy, then formats
`districtId + "-" + schoolYear + "-" + padNumber(serial, 4)`.
An error result models a thrown exception; on success it returns the id
and the updated config sheet. -/
def next (config : ConfigSheet) : Except String (String × ConfigSheet) :=
  let districtId := Config.districtId config
  let schoolYear := Config.schoolYearProperty config
  if districtId = "" then
    .error "IdAllocator: District ID is not configured"
  else
    match schoolYear with
    | none => .error "IdAllocator: School Year is not configured"
    | some sy =>
      if sy = "" then .error "IdAllocator: School Year is not configured"
      else
        let (serial, config2) := Config.getAndIncrementSerial config
        .ok (districtId ++ "-" ++ sy ++ "-" ++ padNumber serial 4, config2)

end IdAllocator

/-! ## Dates and `inferSchoolYear` (`Utils.js`) -/

/-- The parts of a JavaScript `Date` the embedded code reads. `month` is
1-based, as in the source expression `deadline.getMonth() + 1`. -/
structure JsDate where
  year : Int
  month : Nat
  day : Nat
  deriving DecidableEq, Repr

/-- `inferSchoolYear` from `Utils.js`: an invalid or missing deadline maps
to the empty string; a deadline in or after the start month buckets into
the school year starting that calendar year, an earlier deadline into the
school year that started the year before. -/
def inferSchoolYear (deadline : Option JsDate) (startMonth : Nat) : String :=
  match deadline with
  | none => ""
  | some d =>
    if d.month ≥ startMonth then
      padNumber (d.year % 100) 2 ++ "_" ++ padNumber ((d.year + 1) % 100) 2
    else
      padNumber ((d.year - 1) % 100) 2 ++ "_" ++ padNumber (d.year % 100) 2

/-! ## Project records

A `Project` is modelled through its typed getter views: each field holds
the value the corresponding getter returns (string getters trim their cell
and map falsy cells to the empty string, so an empty string models an
absent value; `dueDate` holds the parsed date or `none`). -/

structure Project where
  projectId : String := ""
  createdAt : Option Nat := none
  schoolYear : String := ""
  projectName : String := ""
  assignee : String := ""
  requestedBy : String := ""
  dueDate : Option JsDate := none
  projectStatus : String := ""
  reminderOffsetsRaw : String := ""
  automationStatus : String := ""
  calendarEventId : String := ""
  folderId : String := ""
  fileId : String := ""
  deriving DecidableEq, Repr

namespace Project

/-- `Project.assignees`: `parseCommaSeparated(this.assignee)`. -/
def assignees (p : Project) : List String :=
  parseCommaSeparated p.assignee

/-- `Project.hasProjectId`: `this.projectId !== ''`. -/
def hasProjectId (p : Project) : Bool :=
  p.projectId ≠ ""

/-- `Project.isReady`: `this.automationStatus === AUTOMATION_STATUS.READY`. -/
def isReady (p : Project) : Bool :=
  p.automationStatus = AUTOMATION_STATUS.READY

end Project

/-! ## `ProjectService`

The external collaborators (Directory resolution, Drive folder and file
operations, Calendar, the id allocator, the Codes defaults) are abstracted
as oracles bundled in `Ops`; an `Except.error` result of an oracle models a
thrown exception. Side effects are recorded in an explicit trace. -/

/-- One observable side effect of processing a row. -/
inductive Effect where
  | mintId (id : String)
  | createFolder (folderName folderId : String)
  | copyTemplate (copyName fileId : String)
  | updateFile (fileId : String)
  | shareFolder (folderId : String)
  | createEvent (eventId : String)
  | updateEvent (eventId : String)
  | refreshValidation
  | sendNewProjectEmail
  | sendErrorNotification (subject : String) (cc : Option String)
  deriving DecidableEq, Repr

/-- Oracles for the providers consumed by `ProjectService`.
`resolve` models `directory.resolveToEmail` (`none` models a falsy
result); `nextId` models `this.idAllocator.next(schoolYear)` as invoked at
the call site (the source method ignores its argument); `shareErrors`
models the list of sharing problems `shareProjectFolder` collects (it
catches every per-grant failure, so it never throws). -/
structure Ops where
  resolve : String → Option String
  now : Nat
  schoolYearStartMonth : Nat
  nextId : String → Except String String
  createFolder : String → Except String String
  templateConfigured : Bool
  copyTemplate : String → Except String String
  shareErrors : Project → List String
  createEvent : Project → Except String String
  updateEvent : Project → Except String Unit
  defaultReminderLabels : List String

/-- Outcome of a (partial) run over one row: the row as mutated so far, the
effect trace so far, and the pending exception if one was thrown. -/
structure StepResult where
  project : Project
  effects : List Effect
  error : Option String
  deriving DecidableEq, Repr

/-- A step that completed normally. -/
def stepOk (p : Project) (effs : List Effect) : StepResult :=
  { project := p, effects := effs, error := none }

/-- A step that threw. -/
def stepErr (p : Project) (effs : List Effect) (msg : String) : StepResult :=
  { project := p, effects := effs, error := some msg }

/-- Sequencing with exception propagation: a pending exception skips the
rest of the method body. -/
def stepSeq (r : StepResult) (f : Project → StepResult) : StepResult :=
  match r.error with
  | some _ => r
  | none =>
    let s := f r.project
    { project := s.project, effects := r.effects ++ s.effects, error := s.error }

namespace ProjectService

/-- JavaScript falsy test on a resolution result (`!email`): `null`,
`undefined` and the empty string are falsy. -/
def jsFalsy : Option String → Bool
  | none => true
  | some s => s = ""

/-- `ProjectService.validateProjectData`: aggregate every failing check
into one error list (title, due date, requester presence and resolution,
assignee presence and resolution). -/
def validateProjectData (resolve : String → Option String) (project : Project) :
    List String :=
  let errors : List String := []
  let errors :=
    if project.projectName = "" then
      errors ++ ["Missing required field: Project Title"]
    else errors
  let errors :=
    if project.dueDate = none then
      errors ++ ["Missing required field: Deadline (Due Date)"]
    else errors
  let errors :=
    if project.requestedBy = "" then
      errors ++ ["Missing required field: Requested By"]
    else if jsFalsy (resolve project.requestedBy) then
      errors ++ ["Requester \"" ++ project.requestedBy ++
        "\" not found in Directory and is not a valid email address"]
    else errors
  let assignees := Project.assignees project
  if assignees.isEmpty then
    errors ++ ["Missing required field: Assignee"]
  else
    let invalidAssignees := assignees.filter (fun a => jsFalsy (resolve a))
    if invalidAssignees.isEmpty then errors
    else if invalidAssignees.length = assignees.length then
      errors ++ ["No valid assignees found. The following could not be resolved: " ++
        String.intercalate ", " invalidAssignees]
    else
      errors ++ ["Some assignees could not be resolved: " ++
        String.intercalate ", " invalidAssignees]

/-- Step 2 of `processReadyProject`: mint an id only when the row has none,
inferring the school-year bucket from the due date and passing it to the
allocator; on success also stamp `createdAt` and `schoolYear`. -/
def stepMintId (ops : Ops) (p : Project) : StepResult :=
  if Project.hasProjectId p then stepOk p []
  else
    let schoolYear := inferSchoolYear p.dueDate ops.schoolYearStartMonth
    match ops.nextId schoolYear with
    | .error e => stepErr p [] e
    | .ok projectId =>
      stepOk { p with projectId := projectId, createdAt := some ops.now,
                      schoolYear := schoolYear }
        [.mintId projectId]

/-- Step 3: create the project folder named `name [id]` unless the row
already records a folder id. -/
def stepCreateFolder (ops : Ops) (p : Project) : StepResult :=
  if p.folderId ≠ "" then stepOk p []
  else
    let folderName := p.projectName ++ " [" ++ p.projectId ++ "]"
    match ops.createFolder folderName with
    | .error e => stepErr p [] e
    | .ok folderId =>
      stepOk { p with folderId := folderId } [.createFolder folderName folderId]

/-- Step 4: when a file id exists, refresh it (`updateProjectFile` catches
its own exceptions); otherwise copy the template (skipped entirely when no
template is configured) and then refresh the copy. -/
def stepProjectFile (ops : Ops) (p : Project) : StepResult :=
  if p.fileId ≠ "" then
    stepOk p [.updateFile p.fileId]
  else if ops.templateConfigured = false then
    stepOk p []
  else
    let copyName := p.projectName ++ " - Project File"
    match ops.copyTemplate copyName with
    | .error e => stepErr p [] e
    | .ok fileId =>
      stepOk { p with fileId := fileId } [.copyTemplate copyName fileId, .updateFile fileId]

/-- Step 5: re-assert folder sharing; `shareProjectFolder` collects
per-grant failures and reports them in one error notification instead of
throwing. -/
def stepShareFolder (ops : Ops) (p : Project) : StepResult :=
  if p.folderId = "" then stepOk p []
  else
    let sharingErrors := ops.shareErrors p
    if sharingErrors.isEmpty then stepOk p [.shareFolder p.folderId]
    else
      stepOk p [.shareFolder p.folderId,
        .sendErrorNotification "Project Folder Sharing Issues" (ops.resolve p.requestedBy)]

/-- Step 6: update the calendar event when one is recorded (this re-throws
provider failures), else create one (`createCalendarEvent` returns the
empty string without calling the provider when the due date is missing). -/
def stepCalendarEvent (ops : Ops) (p : Project) : StepResult :=
  if p.calendarEventId ≠ "" then
    match ops.updateEvent p with
    | .error e => stepErr p [] e
    | .ok _ => stepOk p [.updateEvent p.calendarEventId]
  else if p.dueDate = none then
    stepOk { p with calendarEventId := "" } []
  else
    match ops.createEvent p with
    | .error e => stepErr p [] e
    | .ok eventId =>
      stepOk { p with calendarEventId := eventId } [.createEvent eventId]

/-- Step 7: default `projectStatus` to `Project Assigned` when unset, then
default the reminder timeline. The assignment
`project.reminderOffsets = defaultLabels.join(', ')` targets a getter-only
property of `Project` (the class declares no `reminderOffsets` setter), so
in strict-mode class code it throws a `TypeError` whenever it is reached
(blank `reminder_offsets` cell and a non-empty default label list). -/
def stepDefaults (ops : Ops) (p : Project) : StepResult :=
  let p1 :=
    if p.projectStatus = "" then
      { p with projectStatus := PROJECT_STATUS.PROJECT_ASSIGNED }
    else p
  if p1.reminderOffsetsRaw = "" ∧ ops.defaultReminderLabels.length > 0 then
    stepErr p1 []
      "TypeError: Cannot set property reminderOffsets of #<Project> which has only a getter"
  else stepOk p1 []

/-- The artifact-presence flags captured at the start of the run. -/
structure InitialArtifacts where
  hasProjectId : Bool
  hasFolderId : Bool
  hasFileId : Bool
  hasEventId : Bool
  deriving DecidableEq, Repr

/-- `ProjectService.processReadyProject`: validate first (on failure set
`Error`, notify, and return without side effects); then run the idempotent
creation steps; finally set `Created` and send the new-project email unless
every artifact pre-existed. -/
def processReadyProject (ops : Ops) (project : Project) : StepResult :=
  let validationErrors := validateProjectData ops.resolve project
  if validationErrors.isEmpty = false then
    { project := { project with automationStatus := AUTOMATION_STATUS.ERROR },
      effects := [.refreshValidation,
        .sendErrorNotification "Project Validation Failed" (ops.resolve project.requestedBy)],
      error := none }
  else
    let initialState : InitialArtifacts :=
      { hasProjectId := Project.hasProjectId project,
        hasFolderId := project.folderId ≠ "",
        hasFileId := project.fileId ≠ "",
        hasEventId := project.calendarEventId ≠ "" }
    let r := stepOk project []
    let r := stepSeq r (stepMintId ops)
    let r := stepSeq r (stepCreateFolder ops)
    let r := stepSeq r (stepProjectFile ops)
    let r := stepSeq r (stepShareFolder ops)
    let r := stepSeq r (stepCalendarEvent ops)
    let r := stepSeq r (stepDefaults ops)
    let r := stepSeq r (fun p =>
      stepOk { p with automationStatus := AUTOMATION_STATUS.CREATED } [.refreshValidation])
    let isFullRetry := initialState.hasProjectId && initialState.hasFolderId &&
      initialState.hasFileId && initialState.hasEventId
    stepSeq r (fun p =>
      if isFullRetry then stepOk p [] else stepOk p [.sendNewProjectEmail])

/-- The `try`/`catch` body of the `processReadyProjects` loop: a thrown
error sets the row to `Error` (refreshing its dropdown guard) and sends the
processing-failure notification CC-ed to the resolved requester address. -/
def handleReadyProject (ops : Ops) (project : Project) : Project × List Effect :=
  let r := processReadyProject ops project
  match r.error with
  | none => (r.project, r.effects)
  | some _ =>
    ({ r.project with automationStatus := AUTOMATION_STATUS.ERROR },
      r.effects ++ [.refreshValidation,
        .sendErrorNotification "Project Processing Failed" (ops.resolve r.project.requestedBy)])

/-- The `for` loop of `ProjectService.processReadyProjects` over the ready
rows. -/
def processReadyProjectsLoop (ops : Ops) : List Project → List (Project × List Effect)
  | [] => []
  | project :: rest =>
    handleReadyProject ops project :: processReadyProjectsLoop ops rest

/-- `ProjectService.processReadyProjects`: fetch the rows whose
`automation_status` is `Ready` and process each in turn. -/
def processReadyProjects (ops : Ops) (allProjects : List Project) :
    List (Project × List Effect) :=
  processReadyProjectsLoop ops (allProjects.filter Project.isReady)

end ProjectService

/-! ## Concrete instances used by the theorems -/

/-- A fully populated `Config` sheet: district id, school year and serial
are all present (together with the other required keys). -/
def fullyConfigured : ConfigSheet :=
  ⟨[("District ID", "NUSD"), ("School Year", "25_26"), ("Next Serial", "24"),
    ("Parent Folder ID", "PARENT-FOLDER"), ("Project Template ID", "TEMPLATE")]⟩

/-- Provider oracles whose id allocator is the real `IdAllocator.next`
over `fullyConfigured` (the bucket argument passed at the call site is
dropped, as in the source method signature) and whose Drive, Calendar and
Directory calls all succeed. -/
def c4Ops : Ops :=
  { resolve := fun s =>
      if s = "Alice" ∨ s = "Bob" then some (s ++ "@district.org") else none
    now := 1000
    schoolYearStartMonth := Config.schoolYearStartMonth fullyConfigured
    nextId := fun _ => (IdAllocator.next fullyConfigured).map Prod.fst
    createFolder := fun _ => .ok "FOLDER-1"
    templateConfigured := true
    copyTemplate := fun _ => .ok "FILE-1"
    shareErrors := fun _ => []
    createEvent := fun _ => .ok "EVENT-1"
    updateEvent := fun _ => .ok ()
    defaultReminderLabels := ["3 days before", "1 week before", "2 weeks before"] }

/-- A valid `Ready` row without an id: name, due date, resolvable
requester and resolvable assignee are all present. -/
def c4Project : Project :=
  { projectName := "Budget Review", assignee := "Alice", requestedBy := "Bob",
    dueDate := some { year := 2025, month := 10, day := 1 },
    projectStatus := "On Track", reminderOffsetsRaw := "3 days before",
    automationStatus := "Ready" }

/-- A `Config` sheet with the serial configuration value absent but the
district id (and school year) present. -/
def configWithoutSerial : ConfigSheet :=
  ⟨[("District ID", "NUSD"), ("School Year", "25_26")]⟩

/-- A Codes reminder table whose two configured labels collide up to case. -/
def collidingTable : Codes.ReminderTable :=
  Codes.readReminderColumns
    [("Reminder Days Offset", "Reminder Days: Readable"), ("7", "soon"), ("10", "Soon")]

/-- A well-formed reminder table: aligned columns, distinct offsets,
trimmed labels, one empty label cell, distinct non-empty labels. -/
def wellFormedTable : Codes.ReminderTable :=
  Codes.readReminderColumns
    [("Reminder Days Offset", "Reminder Days: Readable"),
     ("3", "3 days before"), ("7", ""), ("14", "Fortnight")]

/-- Oracles for the C3 witness: a directory that resolves nobody. -/
def c3Ops : Ops :=
  { resolve := fun _ => none
    now := 0
    schoolYearStartMonth := 7
    nextId := fun _ => .ok "NUSD-25_26-0001"
    createFolder := fun _ => .ok "F1"
    templateConfigured := false
    copyTemplate := fun _ => .ok "FI1"
    shareErrors := fun _ => []
    createEvent := fun _ => .ok "E1"
    updateEvent := fun _ => .ok ()
    defaultReminderLabels := [] }

/-- A `Ready` row missing both its due date and any resolvable assignee. -/
def c3Project : Project :=
  { projectName := "Roadmap", assignee := "Ghost One, Ghost Two",
    requestedBy := "Casper", automationStatus := "Ready" }

/-- The effects that create a new artifact: minting an id, creating a
folder, copying the template file, creating a calendar event. -/
def isCreationEffect : Effect → Bool
  | .mintId _ => true
  | .createFolder _ _ => true
  | .copyTemplate _ _ => true
  | .createEvent _ => true
  | _ => false

/-- All four artifacts are recorded on the row. -/
def artifactsPresent (q : Project) : Prop :=
  q.projectId ≠ "" ∧ q.folderId ≠ "" ∧ q.fileId ≠ "" ∧ q.calendarEventId ≠ ""

/-- An effect trace with no creation effect and no new-project email. -/
def SafeEffs (effs : List Effect) : Prop :=
  ∀ e ∈ effs, isCreationEffect e = false ∧ e ≠ Effect.sendNewProjectEmail

/-- Oracles for the C1 witness: everything succeeds. -/
def c1Ops : Ops :=
  { resolve := fun s => if s = "Alice" then some "alice@district.org" else none
    now := 5
    schoolYearStartMonth := 7
    nextId := fun _ => .ok "NUSD-25_26-0031"
    createFolder := fun _ => .ok "F9"
    templateConfigured := true
    copyTemplate := fun _ => .ok "FI9"
    shareErrors := fun _ => []
    createEvent := fun _ => .ok "E9"
    updateEvent := fun _ => .ok ()
    defaultReminderLabels := ["3 days before"] }

/-- A fully provisioned `Ready` row (resume after a crash right before the
status write). -/
def c1Resume : Project :=
  { projectId := "NUSD-25_26-0007", projectName := "Site Visit",
    assignee := "Alice", requestedBy := "Alice",
    dueDate := some { year := 2026, month := 2, day := 10 },
    projectStatus := "On Track", reminderOffsetsRaw := "3 days before",
    automationStatus := "Ready", calendarEventId := "EV7", folderId := "FO7",
    fileId := "FI7" }

/-- Oracles for the C6 witness: the calendar update fails for exactly one
project id. -/
def c6Ops : Ops :=
  { resolve := fun s => if s = "Alice" then some "alice@district.org" else none
    now := 5
    schoolYearStartMonth := 7
    nextId := fun _ => .ok "NUSD-25_26-0031"
    createFolder := fun _ => .ok "F9"
    templateConfigured := true
    copyTemplate := fun _ => .ok "FI9"
    shareErrors := fun _ => []
    createEvent := fun _ => .ok "E9"
    updateEvent := fun q =>
      if q.projectId = "NUSD-25_26-0001" then .error "Calendar unavailable" else .ok ()
    defaultReminderLabels := ["3 days before"] }

/-- A `Ready` row whose calendar refresh will throw. -/
def c6Bad : Project :=
  { projectId := "NUSD-25_26-0001", projectName := "Doomed",
    assignee := "Alice", requestedBy := "Alice",
    dueDate := some { year := 2026, month := 3, day := 1 },
    projectStatus := "On Track", reminderOffsetsRaw := "3 days before",
    automationStatus := "Ready", calendarEventId := "EVX", folderId := "FOX",
    fileId := "FIX" }

/-- A `Ready` row that processes cleanly. -/
def c6Good : Project :=
  { c6Bad with
    projectId := "NUSD-25_26-0002", projectName := "Fine",
    calendarEventId := "EVY", folderId := "FOY", fileId := "FIY" }

/-! ## Theorems -/

/-- Helper: `IdAllocator.next` throws on every input, because
`Config.schoolYearProperty` is always `undefined`. -/
lemma IdAllocator.next_always_error (c : ConfigSheet) :
    IdAllocator.next c = .error "IdAllocator: District ID is not configured" ∨
    IdAllocator.next c = .error "IdAllocator: School Year is not configured" := by
  unfold IdAllocator.next Config.schoolYearProperty
  by_cases h : Config.districtId c = "" <;> simp [h]

/-- C2 counterexample: for the `Created` state the guard returns the set
with `Created` itself included, which is not the successor set
`[Updated, Delete (Notify), Delete (Do not Notify)]` stated by the claim. -/
theorem c2_counterexample :
    ValidationService.getAllowedStatusValues AUTOMATION_STATUS.CREATED =
      [AUTOMATION_STATUS.CREATED, AUTOMATION_STATUS.UPDATED,
       AUTOMATION_STATUS.DELETE_NOTIFY, AUTOMATION_STATUS.DELETE_NO_NOTIFY] ∧
    AUTOMATION_STATUS.CREATED ∉
      [AUTOMATION_STATUS.UPDATED, AUTOMATION_STATUS.DELETE_NOTIFY,
       AUTOMATION_STATUS.DELETE_NO_NOTIFY] := by
  constructor
  · rfl
  · decide

/-- C2 (amended): the guard maps the blank state to exactly `[Ready]`, the
`Created` state to exactly `[Created, Updated, Delete (Notify),
Delete (Do not Notify)]`, the `Error` state to exactly `[Error, Ready]`,
and every other non-blank state (including unknown values) to exactly the
current value — the keep-current option is included in the `Created` and
`Error` sets. -/
theorem c2_allowed_values_exact :
    ValidationService.getAllowedStatusValues AUTOMATION_STATUS.BLANK =
      [AUTOMATION_STATUS.READY] ∧
    ValidationService.getAllowedStatusValues AUTOMATION_STATUS.CREATED =
      [AUTOMATION_STATUS.CREATED, AUTOMATION_STATUS.UPDATED,
       AUTOMATION_STATUS.DELETE_NOTIFY, AUTOMATION_STATUS.DELETE_NO_NOTIFY] ∧
    ValidationService.getAllowedStatusValues AUTOMATION_STATUS.ERROR =
      [AUTOMATION_STATUS.ERROR, AUTOMATION_STATUS.READY] ∧
    ∀ s : String, s ≠ "" → s ≠ AUTOMATION_STATUS.CREATED →
      s ≠ AUTOMATION_STATUS.ERROR →
      ValidationService.getAllowedStatusValues s = [s] := by
  refine ⟨rfl, rfl, rfl, ?_⟩
  intro s h1 h2 h3
  unfold ValidationService.getAllowedStatusValues
  rw [if_neg (by simp [AUTOMATION_STATUS.BLANK, h1]), if_neg h2, if_neg h3]
  by_cases hR : s = AUTOMATION_STATUS.READY
  · subst hR; rfl
  rw [if_neg hR]
  by_cases hU : s = AUTOMATION_STATUS.UPDATED
  · subst hU; rfl
  rw [if_neg hU]
  by_cases hD : s = AUTOMATION_STATUS.DELETE_NOTIFY ∨ s = AUTOMATION_STATUS.DELETE_NO_NOTIFY
  · rw [if_pos hD]
  rw [if_neg hD]
  by_cases hDel : s = AUTOMATION_STATUS.DELETED
  · subst hDel; rfl
  rw [if_neg hDel, if_neg h1]

/-- C2 witness: a locked state (`Deleted`) and an unknown non-blank state
are both mapped to exactly their current value. -/
theorem c2_allowed_values_exact_witness :
    ValidationService.getAllowedStatusValues "Deleted" = ["Deleted"] ∧
    ValidationService.getAllowedStatusValues "Mystery" = ["Mystery"] :=
  ⟨c2_allowed_values_exact.2.2.2 "Deleted" (by decide) (by decide) (by decide),
   c2_allowed_values_exact.2.2.2 "Mystery" (by decide) (by decide) (by decide)⟩

/-- C8 counterexample: a row whose `completed_at` was already stamped (at
time 5) is edited from `On Track` back to `Complete` at time 9, and the
handler overwrites the stamp with the new time instead of preserving it. -/
theorem c8_counterexample :
    handleProjectsEdit (some 11) (some 12)
      { row := 3, col := 12, value := some "Complete", oldValue := some "On Track" }
      (some 5) 9 = some 9 ∧
    (some 9 : Option Nat) ≠ some 5 := by
  constructor
  · rfl
  · decide

/-- C8 (amended): `handleProjectsEdit` stamps `completed_at` with the
current time on exactly the edits of the `project_status` column (in a data
row, both columns being present) that change the trimmed value from a
non-`Complete` value to `Complete` — including a later re-completion, which
overwrites any earlier stamp — and every other edit leaves `completed_at`
unchanged (in particular an edit moving the status away from `Complete`
never clears it). -/
theorem c8_completed_at_edit (statusColIndex completedAtColIndex : Option Nat)
    (event : EditEvent) (completedAt : Option Nat) (now : Nat) :
    (handleProjectsEdit statusColIndex completedAtColIndex event completedAt now = some now
      ∧ (2 < event.row ∧ (∃ sci, statusColIndex = some sci ∧ event.col = sci + 1)
          ∧ completedAtColIndex ≠ none
          ∧ jsTrim (event.value.getD "") = PROJECT_STATUS.COMPLETE
          ∧ jsTrim (event.oldValue.getD "") ≠ PROJECT_STATUS.COMPLETE)) ∨
    (handleProjectsEdit statusColIndex completedAtColIndex event completedAt now = completedAt
      ∧ ¬ (2 < event.row ∧ (∃ sci, statusColIndex = some sci ∧ event.col = sci + 1)
          ∧ completedAtColIndex ≠ none
          ∧ jsTrim (event.value.getD "") = PROJECT_STATUS.COMPLETE
          ∧ jsTrim (event.oldValue.getD "") ≠ PROJECT_STATUS.COMPLETE)) := by
  unfold handleProjectsEdit
  by_cases hrow : event.row ≤ 2
  · right
    rw [if_pos hrow]
    exact ⟨rfl, fun h => absurd h.1 (by omega)⟩
  rw [if_neg hrow]
  cases hs : statusColIndex with
  | none =>
    right
    refine ⟨rfl, ?_⟩
    rintro ⟨-, ⟨sci, hsci, -⟩, -⟩
    exact Option.noConfusion hsci
  | some sci =>
    by_cases hcol : event.col = sci + 1
    · simp only [if_pos hcol]
      by_cases htrans : jsTrim (event.value.getD "") = PROJECT_STATUS.COMPLETE ∧
          jsTrim (event.oldValue.getD "") ≠ PROJECT_STATUS.COMPLETE
      · simp only [if_pos htrans]
        cases hc : completedAtColIndex with
        | none =>
          right
          refine ⟨rfl, ?_⟩
          rintro ⟨-, -, hne, -⟩
          exact hne rfl
        | some cci =>
          left
          exact ⟨rfl, by omega, ⟨sci, rfl, hcol⟩, by simp, htrans.1, htrans.2⟩
      · right
        simp only [if_neg htrans]
        refine ⟨trivial, ?_⟩
        rintro ⟨-, -, -, hv, ho⟩
        exact htrans ⟨hv, ho⟩
    · right
      simp only [if_neg hcol]
      refine ⟨trivial, ?_⟩
      rintro ⟨-, ⟨sci2, hsci2, hcol2⟩, -⟩
      cases hsci2
      exact hcol hcol2

/-- C4: evaluation at the failing input. The due-date bucket inferred with
the configured fiscal-year start month is `25_26` and the row passes
validation, yet processing mints no id at all: `IdAllocator.next` ignores
the bucket passed by `processReadyProject` and reads the nonexistent
`Config.schoolYear` property, so it throws
`School Year is not configured` even though the sheet configures
`School Year`, and the run ends in the error handler with the row id still
empty and no artifact created. -/
theorem c4_school_year_bucket_never_reaches_id :
    inferSchoolYear c4Project.dueDate (Config.schoolYearStartMonth fullyConfigured) = "25_26" ∧
    ProjectService.validateProjectData c4Ops.resolve c4Project = [] ∧
    Config.get fullyConfigured "School Year" = some "25_26" ∧
    (ProjectService.processReadyProject c4Ops c4Project).error =
      some "IdAllocator: School Year is not configured" ∧
    (ProjectService.processReadyProject c4Ops c4Project).project.projectId = "" ∧
    (ProjectService.processReadyProject c4Ops c4Project).effects = [] := by
  refine ⟨by decide, by decide, by decide, ?_, ?_, ?_⟩ <;> decide

/-- C5: evaluation at the failing input, plus the two divergences. With
district id, school year and serial all configured, `next` still throws
(no call ever succeeds, contradicting its own contract), because the
`Config` class exposes no `schoolYear` property; and with the serial value
absent, `nextSerial` silently defaults to 1 instead of raising, and
`getAndIncrementSerial` writes nothing back. The final conjunct shows no
input at all makes `next` return an id. -/
theorem c5_next_throws_and_missing_serial_defaults :
    IdAllocator.next fullyConfigured =
      .error "IdAllocator: School Year is not configured" ∧
    Config.nextSerial configWithoutSerial = 1 ∧
    Config.getAndIncrementSerial configWithoutSerial = (1, configWithoutSerial) ∧
    ∀ (c : ConfigSheet) (r : String × ConfigSheet), IdAllocator.next c ≠ .ok r := by
  refine ⟨by rfl, by decide, by decide, ?_⟩
  intro c r h
  rcases IdAllocator.next_always_error c with he | he <;> rw [he] at h <;> exact Except.noConfusion h

/-- Helper: membership characterization of one diff entry. -/
lemma detectChangeEntry_eq_some (previousSnapshot : List (String × String))
    (a b pid o n : String) :
    SnapshotSheet.detectChangeEntry previousSnapshot (a, b) = some (pid, o, n) ↔
      (a = pid ∧ b = n ∧ mapGet previousSnapshot pid = some o ∧ o ≠ n) := by
  unfold SnapshotSheet.detectChangeEntry
  rcases hg : mapGet previousSnapshot a with _ | old
  · constructor
    · intro hf
      dsimp only at hf
      exact Option.noConfusion hf
    · rintro ⟨rfl, rfl, hget, -⟩
      rw [hg] at hget
      exact Option.noConfusion hget
  · constructor
    · intro hf
      dsimp only at hf
      by_cases hne : old ≠ b
      · rw [if_pos hne] at hf
        simp only [Option.some.injEq, Prod.mk.injEq] at hf
        obtain ⟨rfl, rfl, rfl⟩ := hf
        exact ⟨rfl, rfl, hg, hne⟩
      · rw [if_neg hne] at hf
        exact Option.noConfusion hf
    · rintro ⟨rfl, rfl, hget, hne⟩
      rw [hg] at hget
      obtain rfl := Option.some.inj hget
      dsimp only
      rw [if_pos hne]

/-- C7: `detectChanges` reports exactly the triples whose project id occurs
in the current map and in the reloaded snapshot with a different status; a
project only in the current map (new) or only in the snapshot (gone)
produces no entry. In particular, for snapshot `P1 = On Track` and current
`P1 = Complete`, `P2 = On Track`, exactly the single change on `P1` is
reported. -/
theorem c7_detect_changes_exact (sheetRows currentStatuses : List (String × String)) :
    (∀ pid oldStatus newStatus : String,
      (pid, oldStatus, newStatus) ∈ SnapshotSheet.detectChanges sheetRows currentStatuses ↔
        ((pid, newStatus) ∈ currentStatuses ∧
         mapGet (SnapshotSheet.loadSnapshot sheetRows) pid = some oldStatus ∧
         oldStatus ≠ newStatus)) ∧
    SnapshotSheet.detectChanges [("project_id", "project_status"), ("P1", "On Track")]
      [("P1", "Complete"), ("P2", "On Track")] = [("P1", "On Track", "Complete")] := by
  constructor
  · intro pid o n
    unfold SnapshotSheet.detectChanges
    rw [List.mem_filterMap]
    constructor
    · rintro ⟨⟨a, b⟩, hmem, hf⟩
      rw [detectChangeEntry_eq_some] at hf
      obtain ⟨rfl, rfl, hget, hne⟩ := hf
      exact ⟨hmem, hget, hne⟩
    · rintro ⟨hmem, hget, hne⟩
      exact ⟨(pid, n), hmem, (detectChangeEntry_eq_some _ _ _ _ _ _).mpr ⟨rfl, rfl, hget, hne⟩⟩
  · decide

/-- Helper: `Map.set` of a key absent from the map appends the entry. -/
lemma mapSet_of_fresh (m : List (String × String)) (k v : String)
    (h : ∀ a ∈ m, a.1 ≠ k) : mapSet m k v = m ++ [(k, v)] := by
  unfold mapSet
  rw [if_neg]
  simp only [List.any_eq_true, not_exists, not_and]
  intro a ha
  simp [h a ha]

/-- Helper: folding the snapshot-loading step over rows whose cells are
already trimmed, whose ids are non-empty and fresh with respect to the
accumulator and pairwise distinct, appends each row in order. -/
lemma snapshot_foldl_fresh (rows : List (String × String)) :
    ∀ acc : List (String × String),
    (∀ e ∈ rows, jsTrim e.1 = e.1 ∧ jsTrim e.2 = e.2 ∧ e.1 ≠ "") →
    (∀ e ∈ rows, ∀ a ∈ acc, a.1 ≠ e.1) →
    (rows.map Prod.fst).Nodup →
    rows.foldl SnapshotSheet.loadSnapshotStep acc = acc ++ rows := by
  induction rows with
  | nil => intro acc _ _ _; simp
  | cons r rest ih =>
    intro acc htrim hfresh hnd
    obtain ⟨ht1, ht2, hne⟩ := htrim r (by simp)
    have hstep : SnapshotSheet.loadSnapshotStep acc r = acc ++ [(r.1, r.2)] := by
      unfold SnapshotSheet.loadSnapshotStep
      dsimp only
      rw [ht1, ht2, if_pos hne]
      exact mapSet_of_fresh acc r.1 r.2 (fun a ha => hfresh r (by simp) a ha)
    rw [List.foldl_cons, hstep]
    rw [List.map_cons] at hnd
    have hnd2 := List.nodup_cons.mp hnd
    rw [ih (acc ++ [(r.1, r.2)])
      (fun e he => htrim e (by simp [he]))
      (fun e he a ha => by
        rcases List.mem_append.mp ha with ha2 | ha2
        · exact hfresh e (by simp [he]) a ha2
        · simp only [List.mem_singleton] at ha2
          subst ha2
          show r.1 ≠ e.1
          intro hcontra
          exact hnd2.1 (by rw [hcontra]; exact List.mem_map_of_mem Prod.fst he))
      hnd2.2]
    simp

/-- Helper: `overwriteWithCurrent` followed by `loadSnapshot` returns the
same map when every entry has a non-empty trimmed id and a trimmed status. -/
lemma loadSnapshot_overwrite (m : List (String × String))
    (hkeys : (m.map Prod.fst).Nodup)
    (hentries : ∀ e ∈ m, e.1 ≠ "" ∧ jsTrim e.1 = e.1 ∧ jsTrim e.2 = e.2) :
    SnapshotSheet.loadSnapshot (SnapshotSheet.overwriteWithCurrent m) = m := by
  unfold SnapshotSheet.loadSnapshot SnapshotSheet.overwriteWithCurrent
  have hfilter : m.filter (fun e => e.1 ≠ "") = m := by
    rw [List.filter_eq_self]
    intro e he
    simp [(hentries e he).1]
  rw [List.drop_one, List.tail_cons, hfilter,
    snapshot_foldl_fresh m []
      (fun e he => ⟨(hentries e he).2.1, (hentries e he).2.2, (hentries e he).1⟩)
      (fun e _ a ha => absurd ha (List.not_mem_nil a))
      hkeys]
  simp

/-- Helper: looking up the key of an entry of a map with pairwise distinct
keys returns exactly that entry. -/
lemma mapGet_mem_nodup (m : List (String × String)) (e : String × String)
    (hnd : (m.map Prod.fst).Nodup) (he : e ∈ m) : mapGet m e.1 = some e.2 := by
  induction m with
  | nil => cases he
  | cons a rest ih =>
    rw [List.map_cons] at hnd
    have hnd2 := List.nodup_cons.mp hnd
    rcases List.mem_cons.mp he with rfl | he2
    · unfold mapGet
      rw [List.find?_cons_of_pos _ (by simp)]
      rfl
    · have hane : ¬ a.1 = e.1 := by
        intro hcontra
        exact hnd2.1 (by rw [hcontra]; exact List.mem_map_of_mem Prod.fst he2)
      unfold mapGet
      rw [List.find?_cons_of_neg _ (by simp [hane])]
      exact ih hnd2.2 he2

/-- C10: immediately after `overwriteWithCurrent m` replaces the snapshot
sheet, `detectChanges m` against the rewritten sheet reports no change at
all, provided the ids and statuses of `m` are non-empty trimmed strings
(and the ids are pairwise distinct, as they are for a map): consecutive
sweeps converge and never report the same status change twice. -/
theorem c10_overwrite_then_detect_is_nil (m : List (String × String))
    (hkeys : (m.map Prod.fst).Nodup)
    (hentries : ∀ e ∈ m, e.1 ≠ "" ∧ jsTrim e.1 = e.1 ∧ e.2 ≠ "" ∧ jsTrim e.2 = e.2) :
    SnapshotSheet.detectChanges (SnapshotSheet.overwriteWithCurrent m) m = [] := by
  unfold SnapshotSheet.detectChanges
  rw [loadSnapshot_overwrite m hkeys
    (fun e he => ⟨(hentries e he).1, (hentries e he).2.1, (hentries e he).2.2.2⟩)]
  rw [List.filterMap_eq_nil_iff]
  intro e he
  unfold SnapshotSheet.detectChangeEntry
  rw [mapGet_mem_nodup m e hkeys he]
  simp

/-- C10 witness: a concrete two-project status map round-trips through the
overwrite with no detected changes. -/
theorem c10_overwrite_then_detect_is_nil_witness :
    SnapshotSheet.detectChanges
      (SnapshotSheet.overwriteWithCurrent [("P1", "On Track"), ("P2", "Complete")])
      [("P1", "On Track"), ("P2", "Complete")] = [] :=
  c10_overwrite_then_detect_is_nil [("P1", "On Track"), ("P2", "Complete")]
    (by decide) (by decide)

/-- C9 counterexample: with configured pairs `(7, soon)` and `(10, Soon)`,
the round trip on the configured label `Soon` of offset 10 returns `soon`
(the case-insensitive search hits the first pair), not `Soon`. -/
theorem c9_counterexample :
    collidingTable = { offsets := [7, 10], labels := ["soon", "Soon"] } ∧
    Codes.offsetToLabel collidingTable (Codes.labelToOffset collidingTable "Soon") = "soon" ∧
    ("soon" : String) ≠ "Soon" := by
  refine ⟨by decide, by decide, by decide⟩

/-- Helper: the case-insensitive label search returns the offset aligned
with position `i` when the label there is non-empty and no earlier
non-empty label collides with it (case-insensitively). -/
lemma labelLookup_at (offsets : List Int) :
    ∀ (labels : List String) (i : Nat) (hio : i < offsets.length)
      (hil : i < labels.length),
    labels.get ⟨i, hil⟩ ≠ "" →
    (∀ j : Fin labels.length, j.val < i → labels.get j ≠ "" →
      jsToLower (labels.get j) ≠ jsToLower (labels.get ⟨i, hil⟩)) →
    Codes.labelLookup offsets labels (jsToLower (labels.get ⟨i, hil⟩)) =
      some (offsets.get ⟨i, hio⟩) := by
  induction offsets with
  | nil => intro labels i hio; exact absurd hio (by simp)
  | cons o os ih =>
    intro labels i hio hil hne hfirst
    cases labels with
    | nil => exact absurd hil (by simp)
    | cons l ls =>
      cases i with
      | zero =>
        unfold Codes.labelLookup
        rw [if_pos ⟨hne, rfl⟩]
        rfl
      | succ n =>
        unfold Codes.labelLookup
        rw [if_neg]
        · exact ih ls n (by simpa using hio) (by simpa using hil) hne
            (fun j hj hjne =>
              hfirst ⟨j.val + 1, by simp only [List.length_cons]; omega⟩
                (by simpa using hj) hjne)
        · rintro ⟨hlne, hleq⟩
          exact hfirst ⟨0, by simp⟩ (by simp) hlne hleq

/-- Helper: with pairwise distinct offsets, looking up the offset at
position `i` returns the label at position `i`. -/
lemma offsetLookup_at (offsets : List Int) :
    ∀ (labels : List String) (i : Nat) (hio : i < offsets.length)
      (hil : i < labels.length),
    offsets.Nodup →
    Codes.offsetLookup offsets labels (offsets.get ⟨i, hio⟩) =
      some (labels.get ⟨i, hil⟩) := by
  induction offsets with
  | nil => intro labels i hio; exact absurd hio (by simp)
  | cons o os ih =>
    intro labels i hio hil hnd
    cases labels with
    | nil => exact absurd hil (by simp)
    | cons l ls =>
      cases i with
      | zero =>
        unfold Codes.offsetLookup
        rw [show ((o :: os).get ⟨0, hio⟩) = o from rfl, if_pos rfl]
        rfl
      | succ n =>
        unfold Codes.offsetLookup
        rw [if_neg]
        · exact ih ls n (by simpa using hio) (by simpa using hil)
            (List.nodup_cons.mp hnd).2
        · intro hcontra
          exact (List.nodup_cons.mp hnd).1 (by rw [hcontra]; exact List.get_mem ..)

/-- Helper: looking up an offset absent from the offsets column finds
nothing. -/
lemma offsetLookup_not_mem (offsets : List Int) :
    ∀ (labels : List String) (o : Int), o ∉ offsets →
    Codes.offsetLookup offsets labels o = none := by
  induction offsets with
  | nil =>
    intro labels o _
    cases labels <;> rfl
  | cons o2 os ih =>
    intro labels o hno
    cases labels with
    | nil => rfl
    | cons l ls =>
      unfold Codes.offsetLookup
      rw [if_neg (show ¬ o2 = o from fun hcontra =>
        hno (by rw [← hcontra]; exact List.mem_cons_self o2 os))]
      exact ih ls o (fun hcontra => hno (List.mem_cons_of_mem o2 hcontra))

/-- C9 (amended): over a reminder table whose columns are aligned, whose
offsets are pairwise distinct, whose labels are trimmed, and whose
non-empty labels are pairwise distinct up to case, the round trip
`offsetToLabel (labelToOffset label)` returns every configured label
unchanged (an empty configured label round-trips to the empty string); an
offset not configured at all falls back to the deterministic generated
label, as does a configured offset whose label cell is empty. Without the
case-distinctness proviso the round trip can return a different pair's
label (see the colliding-labels evaluation). -/
theorem c9_round_trip_amended (t : Codes.ReminderTable)
    (hlen : t.offsets.length = t.labels.length)
    (hnodup : t.offsets.Nodup)
    (htrim : ∀ l ∈ t.labels, jsTrim l = l)
    (hdistinct : t.labels.Pairwise
      (fun a b => a ≠ "" → b ≠ "" → jsToLower a ≠ jsToLower b)) :
    (∀ (i : Nat) (hi : i < t.labels.length),
      Codes.offsetToLabel t (Codes.labelToOffset t (t.labels.get ⟨i, hi⟩)) =
        t.labels.get ⟨i, hi⟩) ∧
    (∀ o : Int, o ∉ t.offsets →
      Codes.offsetToLabel t (some o) = Codes.buildDefaultReminderLabel o) ∧
    (∀ (i : Nat) (hio : i < t.offsets.length) (hil : i < t.labels.length),
      t.labels.get ⟨i, hil⟩ = "" →
      Codes.offsetToLabel t (some (t.offsets.get ⟨i, hio⟩)) =
        Codes.buildDefaultReminderLabel (t.offsets.get ⟨i, hio⟩)) := by
  refine ⟨?_, ?_, ?_⟩
  · intro i hi
    by_cases hempty : t.labels.get ⟨i, hi⟩ = ""
    · rw [hempty]
      unfold Codes.labelToOffset
      rw [if_pos rfl]
      rfl
    · have hio : i < t.offsets.length := by omega
      unfold Codes.labelToOffset
      rw [if_neg hempty]
      dsimp only
      rw [htrim _ (List.get_mem t.labels i hi),
        labelLookup_at t.offsets t.labels i hio hi hempty
          (fun j hj hjne heq =>
            ((List.pairwise_iff_get.mp hdistinct j ⟨i, hi⟩
              (by simpa [Fin.lt_def] using hj)) hjne hempty) heq)]
      unfold Codes.offsetToLabel
      dsimp only
      rw [offsetLookup_at t.offsets t.labels i hio hi hnodup]
      dsimp only
      rw [if_pos hempty]
  · intro o hno
    unfold Codes.offsetToLabel
    dsimp only
    rw [offsetLookup_not_mem t.offsets t.labels o hno]
  · intro i hio hil hempty
    unfold Codes.offsetToLabel
    dsimp only
    rw [offsetLookup_at t.offsets t.labels i hio hil hnodup, hempty]
    dsimp only
    rw [if_neg (by simp)]

/-- C9 witness: the amended round trip at the concrete well-formed table —
the configured labels round-trip, offset 21 (unconfigured) generates
`3 weeks before`, and offset 7 (configured with an empty label) generates
`1 week before`. -/
theorem c9_round_trip_amended_witness :
    Codes.offsetToLabel wellFormedTable
      (Codes.labelToOffset wellFormedTable "3 days before") = "3 days before" ∧
    Codes.offsetToLabel wellFormedTable
      (Codes.labelToOffset wellFormedTable "Fortnight") = "Fortnight" ∧
    Codes.offsetToLabel wellFormedTable (some 21) = "3 weeks before" ∧
    Codes.offsetToLabel wellFormedTable (some 7) = "1 week before" := by
  have h := c9_round_trip_amended wellFormedTable (by decide) (by decide)
    (by decide) (by decide)
  exact ⟨h.1 0 (by decide), h.1 2 (by decide),
    h.2.1 21 (by decide), h.2.2 1 (by decide) (by decide) (by decide)⟩

/-- C3: a `Ready` record that fails required-field validation is moved to
`Error` with no other field touched, the run ends without an exception and
with no side effect other than the dropdown refresh and the validation
error notification (no id minted, no folder, file or calendar event
created); the diagnostics aggregate every failing field in one pass — in
particular a record missing its due date reports the due-date error, one
with no assignee reports the assignee error, and one whose assignees all
fail to resolve reports them all in one message alongside the due-date
error. -/
theorem c3_validation_failure_aggregates_and_is_pure (ops : Ops) (p : Project)
    (hinvalid : ProjectService.validateProjectData ops.resolve p ≠ []) :
    (ProjectService.processReadyProject ops p).project =
      { p with automationStatus := AUTOMATION_STATUS.ERROR } ∧
    (ProjectService.processReadyProject ops p).error = none ∧
    (ProjectService.processReadyProject ops p).effects =
      [.refreshValidation,
       .sendErrorNotification "Project Validation Failed" (ops.resolve p.requestedBy)] ∧
    (p.dueDate = none →
      "Missing required field: Deadline (Due Date)" ∈
        ProjectService.validateProjectData ops.resolve p) ∧
    (Project.assignees p = [] →
      "Missing required field: Assignee" ∈
        ProjectService.validateProjectData ops.resolve p) ∧
    (Project.assignees p ≠ [] →
      (∀ a ∈ Project.assignees p, ProjectService.jsFalsy (ops.resolve a) = true) →
      ("No valid assignees found. The following could not be resolved: " ++
        String.intercalate ", " (Project.assignees p)) ∈
        ProjectService.validateProjectData ops.resolve p) := by
  have hfalse : (ProjectService.validateProjectData ops.resolve p).isEmpty = false := by
    cases hList : ProjectService.validateProjectData ops.resolve p with
    | nil => exact absurd hList hinvalid
    | cons a rest => rfl
  refine ⟨?_, ?_, ?_, ?_, ?_, ?_⟩
  · simp [ProjectService.processReadyProject, hfalse]
  · simp [ProjectService.processReadyProject, hfalse]
  · simp [ProjectService.processReadyProject, hfalse]
  · intro h
    unfold ProjectService.validateProjectData
    simp only [h, if_pos]
    split_ifs <;> simp_all
  · intro h
    unfold ProjectService.validateProjectData
    simp only [h]
    split_ifs <;> simp_all
  · intro hne hall
    have hfilter : (Project.assignees p).filter
        (fun a => ProjectService.jsFalsy (ops.resolve a)) = Project.assignees p := by
      rw [List.filter_eq_self]
      exact hall
    have hemptyP : ¬ ((Project.assignees p).isEmpty = true) := by
      cases hList : Project.assignees p with
      | nil => exact absurd hList hne
      | cons a rest => simp
    unfold ProjectService.validateProjectData
    dsimp only
    rw [hfilter, if_neg hemptyP, if_neg hemptyP, if_pos rfl]
    exact List.mem_append_right _ (List.mem_singleton_self _)

/-- C3 witness: the concrete invalid row is moved to `Error` untouched
otherwise, and its diagnostics contain both the due-date error and the
all-assignees-unresolvable error in the same list. -/
theorem c3_validation_failure_witness :
    ProjectService.validateProjectData c3Ops.resolve c3Project ≠ [] ∧
    (ProjectService.processReadyProject c3Ops c3Project).project =
      { c3Project with automationStatus := AUTOMATION_STATUS.ERROR } ∧
    "Missing required field: Deadline (Due Date)" ∈
      ProjectService.validateProjectData c3Ops.resolve c3Project ∧
    ("No valid assignees found. The following could not be resolved: " ++
      String.intercalate ", " (Project.assignees c3Project)) ∈
      ProjectService.validateProjectData c3Ops.resolve c3Project := by
  have h := c3_validation_failure_aggregates_and_is_pure c3Ops c3Project (by decide)
  exact ⟨by decide, h.1, h.2.2.2.1 rfl, h.2.2.2.2.2 (by decide) (by decide)⟩

/-- Helper: a sequenced run that ended without a pending exception ran
both parts, and its trace and final row are those of the second part
appended to the first. -/
lemma stepSeq_ok_decompose (r : StepResult) (f : Project → StepResult)
    (h : (stepSeq r f).error = none) :
    r.error = none ∧ (f r.project).error = none ∧
    (stepSeq r f).effects = r.effects ++ (f r.project).effects ∧
    (stepSeq r f).project = (f r.project).project := by
  unfold stepSeq at h ⊢
  split at h
  next e heq =>
    exact absurd h (by simp [heq])
  next heq =>
    dsimp only at h
    rw [heq]
    dsimp only
    exact ⟨rfl, h, rfl, rfl⟩

/-- Helper: sequencing preserves artifact presence and effect safety when
the second part does. -/
lemma stepSeq_safe (r : StepResult) (f : Project → StepResult)
    (hr : artifactsPresent r.project ∧ SafeEffs r.effects)
    (hf : ∀ q, artifactsPresent q →
      artifactsPresent (f q).project ∧ SafeEffs (f q).effects) :
    artifactsPresent (stepSeq r f).project ∧ SafeEffs (stepSeq r f).effects := by
  unfold stepSeq
  cases hre : r.error with
  | some e => exact hr
  | none =>
    dsimp only
    obtain ⟨hfa, hfe⟩ := hf r.project hr.1
    exact ⟨hfa, fun e he => (List.mem_append.mp he).elim (hr.2 e) (hfe e)⟩

/-- Helper: with an id already on the row, the minting step is a no-op. -/
lemma stepMintId_safe (ops : Ops) :
    ∀ q, artifactsPresent q →
      artifactsPresent (ProjectService.stepMintId ops q).project ∧
      SafeEffs (ProjectService.stepMintId ops q).effects := by
  intro q hq
  unfold ProjectService.stepMintId
  rw [if_pos (by simp [Project.hasProjectId, hq.1])]
  exact ⟨hq, fun e he => absurd he (by simp [stepOk])⟩

/-- Helper: with a folder id on the row, folder creation is a no-op. -/
lemma stepCreateFolder_safe (ops : Ops) :
    ∀ q, artifactsPresent q →
      artifactsPresent (ProjectService.stepCreateFolder ops q).project ∧
      SafeEffs (ProjectService.stepCreateFolder ops q).effects := by
  intro q hq
  unfold ProjectService.stepCreateFolder
  rw [if_pos hq.2.1]
  exact ⟨hq, fun e he => absurd he (by simp [stepOk])⟩

/-- Helper: with a file id on the row, the file step only refreshes. -/
lemma stepProjectFile_safe (ops : Ops) :
    ∀ q, artifactsPresent q →
      artifactsPresent (ProjectService.stepProjectFile ops q).project ∧
      SafeEffs (ProjectService.stepProjectFile ops q).effects := by
  intro q hq
  unfold ProjectService.stepProjectFile
  rw [if_pos hq.2.2.1]
  refine ⟨hq, fun e he => ?_⟩
  simp only [stepOk, List.mem_singleton] at he
  subst he
  exact ⟨rfl, by simp⟩

/-- Helper: sharing emits no creation effect and no new-project email. -/
lemma stepShareFolder_safe (ops : Ops) :
    ∀ q, artifactsPresent q →
      artifactsPresent (ProjectService.stepShareFolder ops q).project ∧
      SafeEffs (ProjectService.stepShareFolder ops q).effects := by
  intro q hq
  unfold ProjectService.stepShareFolder
  rw [if_neg (fun hcontra => hq.2.1 hcontra)]
  dsimp only
  split_ifs with hse
  · refine ⟨hq, fun e he => ?_⟩
    simp only [stepOk, List.mem_singleton] at he
    subst he
    exact ⟨rfl, by simp⟩
  · refine ⟨hq, fun e he => ?_⟩
    simp only [stepOk, List.mem_cons, List.mem_singleton,
      List.not_mem_nil, or_false] at he
    rcases he with rfl | rfl
    · exact ⟨rfl, by simp⟩
    · exact ⟨rfl, by simp⟩

/-- Helper: with a calendar event id on the row, the event step only
refreshes (or re-throws). -/
lemma stepCalendarEvent_safe (ops : Ops) :
    ∀ q, artifactsPresent q →
      artifactsPresent (ProjectService.stepCalendarEvent ops q).project ∧
      SafeEffs (ProjectService.stepCalendarEvent ops q).effects := by
  intro q hq
  unfold ProjectService.stepCalendarEvent
  rw [if_pos hq.2.2.2]
  cases hue : ops.updateEvent q with
  | error e0 => exact ⟨hq, fun e he => absurd he (by simp [stepErr])⟩
  | ok u =>
    refine ⟨hq, fun e he => ?_⟩
    simp only [stepOk, List.mem_singleton] at he
    subst he
    exact ⟨rfl, by simp⟩

/-- Helper: the defaults step touches only `projectStatus` and emits no
effect (it may throw the reminder-setter `TypeError`). -/
lemma stepDefaults_safe (ops : Ops) :
    ∀ q, artifactsPresent q →
      artifactsPresent (ProjectService.stepDefaults ops q).project ∧
      SafeEffs (ProjectService.stepDefaults ops q).effects := by
  intro q hq
  unfold ProjectService.stepDefaults
  dsimp only
  by_cases hps : q.projectStatus = ""
  · rw [if_pos hps]
    by_cases hrm : q.reminderOffsetsRaw = "" ∧ ops.defaultReminderLabels.length > 0
    · rw [if_pos hrm]
      exact ⟨hq, fun e he => absurd he (by simp [stepErr])⟩
    · rw [if_neg hrm]
      exact ⟨hq, fun e he => absurd he (by simp [stepOk])⟩
  · rw [if_neg hps]
    by_cases hrm : q.reminderOffsetsRaw = "" ∧ ops.defaultReminderLabels.length > 0
    · rw [if_pos hrm]
      exact ⟨hq, fun e he => absurd he (by simp [stepErr])⟩
    · rw [if_neg hrm]
      exact ⟨hq, fun e he => absurd he (by simp [stepOk])⟩

/-- C1: processing a `Ready` row that already carries all four artifacts
(id, folder id, file id, calendar event id) records no creation effect and
never sends the new-project email — whether the run succeeds or throws
midway; and processing a `Ready` row with at least one artifact missing
sends the new-project email whenever the run succeeds (ends with no
exception in the `Created` state). -/
theorem c1_idempotent_resume_and_notification (ops : Ops) (p : Project)
    (hready : p.automationStatus = AUTOMATION_STATUS.READY) :
    ((p.projectId ≠ "" ∧ p.folderId ≠ "" ∧ p.fileId ≠ "" ∧ p.calendarEventId ≠ "") →
      (∀ e ∈ (ProjectService.processReadyProject ops p).effects,
        isCreationEffect e = false) ∧
      Effect.sendNewProjectEmail ∉ (ProjectService.processReadyProject ops p).effects) ∧
    ((p.projectId = "" ∨ p.folderId = "" ∨ p.fileId = "" ∨ p.calendarEventId = "") →
      (ProjectService.processReadyProject ops p).error = none →
      (ProjectService.processReadyProject ops p).project.automationStatus =
        AUTOMATION_STATUS.CREATED →
      Effect.sendNewProjectEmail ∈ (ProjectService.processReadyProject ops p).effects) := by
  constructor
  · rintro ⟨hid, hfo, hfi, hev⟩
    by_cases hv : (ProjectService.validateProjectData ops.resolve p).isEmpty = false
    · constructor
      · intro e he
        simp only [ProjectService.processReadyProject, if_pos hv] at he
        rcases List.mem_cons.mp he with rfl | he2
        · rfl
        · rcases List.mem_singleton.mp he2 with rfl
          rfl
      · intro he
        simp only [ProjectService.processReadyProject, if_pos hv] at he
        rcases List.mem_cons.mp he with h1 | he2
        · exact Effect.noConfusion h1
        · exact Effect.noConfusion (List.mem_singleton.mp he2)
    · have hS : artifactsPresent (ProjectService.processReadyProject ops p).project ∧
          SafeEffs (ProjectService.processReadyProject ops p).effects := by
        unfold ProjectService.processReadyProject
        rw [if_neg hv]
        dsimp only
        refine stepSeq_safe _ _ ?_ ?_
        · refine stepSeq_safe _ _ ?_ ?_
          · refine stepSeq_safe _ _ ?_ ?_
            · refine stepSeq_safe _ _ ?_ ?_
              · refine stepSeq_safe _ _ ?_ ?_
                · refine stepSeq_safe _ _ ?_ ?_
                  · refine stepSeq_safe _ _ ?_ ?_
                    · refine stepSeq_safe _ _ ?_ ?_
                      · exact ⟨⟨hid, hfo, hfi, hev⟩,
                          fun e he => absurd he (by simp [stepOk])⟩
                      · exact stepMintId_safe ops
                    · exact stepCreateFolder_safe ops
                  · exact stepProjectFile_safe ops
                · exact stepShareFolder_safe ops
              · exact stepCalendarEvent_safe ops
            · exact stepDefaults_safe ops
          · intro q hq
            exact ⟨hq, fun e he => by
              simp only [stepOk, List.mem_singleton] at he
              subst he
              exact ⟨rfl, by simp⟩⟩
        · intro q hq
          have hC : (Project.hasProjectId p && decide (p.folderId ≠ "") &&
              decide (p.fileId ≠ "") && decide (p.calendarEventId ≠ "")) = true := by
            simp [Project.hasProjectId, hid, hfo, hfi, hev]
          simp only [hC]
          rw [if_pos trivial]
          exact ⟨hq, fun e he => absurd he (by simp [stepOk])⟩
      exact ⟨fun e he => (hS.2 e he).1, fun he => (hS.2 _ he).2 rfl⟩
  · intro hmiss hsucc hcreated
    by_cases hv : (ProjectService.validateProjectData ops.resolve p).isEmpty = false
    · exfalso
      simp only [ProjectService.processReadyProject, if_pos hv] at hcreated
      exact absurd hcreated (by decide)
    · unfold ProjectService.processReadyProject at hsucc ⊢
      rw [if_neg hv] at hsucc ⊢
      dsimp only at hsucc ⊢
      obtain ⟨-, -, heff, -⟩ := stepSeq_ok_decompose _ _ hsucc
      rw [heff]
      have hretry : (Project.hasProjectId p && decide (p.folderId ≠ "") &&
          decide (p.fileId ≠ "") && decide (p.calendarEventId ≠ "")) = false := by
        rcases hmiss with h | h | h | h <;> simp [Project.hasProjectId, h]
      simp only [hretry]
      rw [if_neg (by simp)]
      exact List.mem_append_right _ (by simp [stepOk])

/-- C1 witness: the fully provisioned row is reprocessed without the
new-project email, while the same row with its calendar event missing gets
the email on its successful run. -/
theorem c1_idempotent_resume_witness :
    Effect.sendNewProjectEmail ∉
      (ProjectService.processReadyProject c1Ops c1Resume).effects ∧
    Effect.sendNewProjectEmail ∈
      (ProjectService.processReadyProject c1Ops
        { c1Resume with calendarEventId := "" }).effects := by
  constructor
  · exact ((c1_idempotent_resume_and_notification c1Ops c1Resume rfl).1
      (by decide)).2
  · exact (c1_idempotent_resume_and_notification c1Ops
      { c1Resume with calendarEventId := "" } rfl).2
      (by decide) (by decide) (by decide)

/-- Helper: the minting step never changes `requestedBy`. -/
lemma stepMintId_requestedBy (ops : Ops) (q : Project) :
    (ProjectService.stepMintId ops q).project.requestedBy = q.requestedBy := by
  unfold ProjectService.stepMintId
  split
  · rfl
  · dsimp only
    split <;> rfl

/-- Helper: the folder step never changes `requestedBy`. -/
lemma stepCreateFolder_requestedBy (ops : Ops) (q : Project) :
    (ProjectService.stepCreateFolder ops q).project.requestedBy = q.requestedBy := by
  unfold ProjectService.stepCreateFolder
  split
  · rfl
  · dsimp only
    split <;> rfl

/-- Helper: the file step never changes `requestedBy`. -/
lemma stepProjectFile_requestedBy (ops : Ops) (q : Project) :
    (ProjectService.stepProjectFile ops q).project.requestedBy = q.requestedBy := by
  unfold ProjectService.stepProjectFile
  split
  · rfl
  · split
    · rfl
    · dsimp only
      split <;> rfl

/-- Helper: the sharing step never changes `requestedBy`. -/
lemma stepShareFolder_requestedBy (ops : Ops) (q : Project) :
    (ProjectService.stepShareFolder ops q).project.requestedBy = q.requestedBy := by
  unfold ProjectService.stepShareFolder
  split
  · rfl
  · dsimp only
    split <;> rfl

/-- Helper: the calendar step never changes `requestedBy`. -/
lemma stepCalendarEvent_requestedBy (ops : Ops) (q : Project) :
    (ProjectService.stepCalendarEvent ops q).project.requestedBy = q.requestedBy := by
  unfold ProjectService.stepCalendarEvent
  split
  · split <;> rfl
  · split
    · rfl
    · split <;> rfl

/-- Helper: the defaults step never changes `requestedBy`. -/
lemma stepDefaults_requestedBy (ops : Ops) (q : Project) :
    (ProjectService.stepDefaults ops q).project.requestedBy = q.requestedBy := by
  unfold ProjectService.stepDefaults
  dsimp only
  split <;> split <;> rfl

/-- Helper: sequencing preserves `requestedBy` when the second part does. -/
lemma stepSeq_requestedBy (r : StepResult) (f : Project → StepResult)
    (hf : ∀ q, (f q).project.requestedBy = q.requestedBy) :
    (stepSeq r f).project.requestedBy = r.project.requestedBy := by
  unfold stepSeq
  split
  · rfl
  · dsimp only
    exact hf r.project

/-- Helper: `processReadyProject` never changes the `requestedBy` field of
the row it processes. -/
lemma processReadyProject_requestedBy (ops : Ops) (p : Project) :
    (ProjectService.processReadyProject ops p).project.requestedBy = p.requestedBy := by
  unfold ProjectService.processReadyProject
  dsimp only
  split
  · rfl
  · rw [stepSeq_requestedBy _ _ (fun q => by split <;> rfl),
      stepSeq_requestedBy _ _ (fun q => rfl),
      stepSeq_requestedBy _ _ (stepDefaults_requestedBy ops),
      stepSeq_requestedBy _ _ (stepCalendarEvent_requestedBy ops),
      stepSeq_requestedBy _ _ (stepShareFolder_requestedBy ops),
      stepSeq_requestedBy _ _ (stepProjectFile_requestedBy ops),
      stepSeq_requestedBy _ _ (stepCreateFolder_requestedBy ops),
      stepSeq_requestedBy _ _ (stepMintId_requestedBy ops)]
    rfl

/-- Helper: the processing loop is a pointwise map of the per-row handler —
the loop body of one row never influences whether the next row runs. -/
lemma processReadyProjectsLoop_eq_map (ops : Ops) (rows : List Project) :
    ProjectService.processReadyProjectsLoop ops rows =
      rows.map (ProjectService.handleReadyProject ops) := by
  induction rows with
  | nil => rfl
  | cons r rest ih =>
    unfold ProjectService.processReadyProjectsLoop
    rw [ih, List.map_cons]

/-- Helper: the per-row handler on a row whose processing threw. -/
lemma handleReadyProject_of_error (ops : Ops) (q : Project) (msg : String)
    (herr : (ProjectService.processReadyProject ops q).error = some msg) :
    ProjectService.handleReadyProject ops q =
      ({ (ProjectService.processReadyProject ops q).project with
          automationStatus := AUTOMATION_STATUS.ERROR },
        (ProjectService.processReadyProject ops q).effects ++
          [.refreshValidation,
           .sendErrorNotification "Project Processing Failed"
             (ops.resolve (ProjectService.processReadyProject ops q).project.requestedBy)]) := by
  unfold ProjectService.handleReadyProject
  dsimp only
  rw [herr]

/-- C6: the batch processor handles exactly the `Ready` rows, its output at
each position is the per-row handler applied to that row alone (so a
thrown error on one row never prevents or alters the processing of any
other row), and a row whose processing threw ends with `automationStatus`
set to `Error` and a processing-failure notification CC-ed to the resolved
requester address of that row. -/
theorem c6_row_failure_never_blocks_batch (ops : Ops) (allProjects : List Project) :
    (ProjectService.processReadyProjects ops allProjects).length =
      (allProjects.filter Project.isReady).length ∧
    (∀ (i : Nat) (hi : i < (allProjects.filter Project.isReady).length),
      (ProjectService.processReadyProjects ops allProjects).get? i =
        some (ProjectService.handleReadyProject ops
          ((allProjects.filter Project.isReady).get ⟨i, hi⟩))) ∧
    (∀ (i : Nat) (hi : i < (allProjects.filter Project.isReady).length)
       (msg : String),
      (ProjectService.processReadyProject ops
        ((allProjects.filter Project.isReady).get ⟨i, hi⟩)).error = some msg →
      ∃ entry : Project × List Effect,
        (ProjectService.processReadyProjects ops allProjects).get? i = some entry ∧
        entry.1.automationStatus = AUTOMATION_STATUS.ERROR ∧
        Effect.sendErrorNotification "Project Processing Failed"
            (ops.resolve ((allProjects.filter Project.isReady).get ⟨i, hi⟩).requestedBy) ∈
          entry.2) := by
  have hmap : ProjectService.processReadyProjects ops allProjects =
      (allProjects.filter Project.isReady).map (ProjectService.handleReadyProject ops) := by
    unfold ProjectService.processReadyProjects
    exact processReadyProjectsLoop_eq_map ops _
  have hget : ∀ (i : Nat), i < (allProjects.filter Project.isReady).length →
      ∀ (hi : i < (allProjects.filter Project.isReady).length),
      (ProjectService.processReadyProjects ops allProjects).get? i =
        some (ProjectService.handleReadyProject ops
          ((allProjects.filter Project.isReady).get ⟨i, hi⟩)) := by
    intro i hilt hi
    rw [hmap, List.get?_map, List.get?_eq_get hi]
    rfl
  refine ⟨by rw [hmap]; exact List.length_map _ _, fun i hi => hget i hi hi, ?_⟩
  intro i hi msg herr
  refine ⟨ProjectService.handleReadyProject ops
    ((allProjects.filter Project.isReady).get ⟨i, hi⟩), hget i hi hi, ?_, ?_⟩
  · rw [handleReadyProject_of_error ops _ msg herr]
  · rw [handleReadyProject_of_error ops _ msg herr]
    dsimp only
    rw [processReadyProject_requestedBy]
    exact List.mem_append_right _ (by simp)

/-- C6 witness: with the first of two ready rows throwing mid-processing,
the first output entry carries `Error` plus the processing-failure
notification CC-ed to the requester, and the second row is still processed
normally. -/
theorem c6_row_failure_never_blocks_batch_witness :
    (∃ entry : Project × List Effect,
      (ProjectService.processReadyProjects c6Ops [c6Bad, c6Good]).get? 0 = some entry ∧
      entry.1.automationStatus = AUTOMATION_STATUS.ERROR ∧
      Effect.sendErrorNotification "Project Processing Failed"
        (some "alice@district.org") ∈ entry.2) ∧
    (ProjectService.processReadyProjects c6Ops [c6Bad, c6Good]).get? 1 =
      some (ProjectService.handleReadyProject c6Ops c6Good) := by
  have h := c6_row_failure_never_blocks_batch c6Ops [c6Bad, c6Good]
  exact ⟨h.2.2 0 (by decide) "Calendar unavailable" (by decide), h.2.1 1 (by decide)⟩
